import Mathlib

/-!
# go-create: audio normalisation and transcription orchestration (`app.go`)

A shallow embedding of `app.go` and proofs about it.

Modelling conventions
* Go `string` values are lists of characters (`Str`); Go `[]byte` values are lists of `Byte`.
* The filesystem is a finite map from path to file content, passed explicitly.
* A `float32` sample is a rational number.  Every value `readWav` produces has the form
  `k / 32768` with `k` a signed 16-bit integer; such a value is exactly representable in
  binary32 (16 significant bits, exponent at least `-15`), so both the conversion
  `float32(sample)` and the division by the power of two `32768.0` are exact and the rational
  is the float.  Buffers handed in by a caller are only ever measured (`len`) and forwarded.
* The whisper library, `ffmpeg`, `pbcopy` and the behaviour of the operating system where the
  code looks at it or discards it (`os.Stat`, failure of `os.WriteFile`, failure of
  `os.Remove`) are external: their behaviour is a parameter (`Env`), arbitrary in every
  theorem.
* `defer f()` runs `f` after the function body on every return path and on a panic.
-/

namespace GoCreate

/-! ## Basic data -/

/-- A Go string. -/
abbrev Str := List Char

/-- One byte of a file. -/
abbrev Byte := Fin 256

/-- A `float32` audio sample (see the conventions above). -/
abbrev Sample := ℚ

/-- The filesystem: the content of every existing file. -/
abbrev FS := Str → Option (List Byte)

/-- Effect of an `os.Remove(path)` that succeeds: afterwards the path has no entry. -/
def Remove (fs : FS) (path : Str) : FS :=
  fun q => if q = path then none else fs q

/-- Effect of a successful `os.WriteFile(path, data, 0644)`. -/
def WriteFile (fs : FS) (path : Str) (data : List Byte) : FS :=
  fun q => if q = path then some data else fs q

/-- What `LoadModel` sees of the result of `os.Stat(path)`. -/
inductive StatResult
  /-- The error is `nil`. -/
  | found
  /-- An error for which `os.IsNotExist` is true (ENOENT). -/
  | notExist
  /-- Any other error (ENOTDIR, EACCES, ...): `os.IsNotExist` is false. -/
  | otherError
  deriving DecidableEq, Repr

/-- Errors of the `os`/`io` layer that `readWav` hands back unchanged. -/
inductive IOErr
  /-- Failure of `os.Open`. -/
  | openFailed
  /-- The error `io.ErrUnexpectedEOF` of `io.ReadFull`: end of file after some but not all of
  the requested bytes. -/
  | unexpectedEOF
  deriving DecidableEq, Repr

/-! ## `readWav` -/

/-- The library function `binary.LittleEndian.Uint16(buf)`, which is
`uint16(buf[0]) | uint16(buf[1])<<8`: the first byte is the low one. -/
def Uint16 (b0 b1 : Byte) : Nat :=
  b0.val + 256 * b1.val

/-- The Go conversion `int16(u)` of a `uint16`: the same 16 bits read as a signed number. -/
def int16 (u : Nat) : Int :=
  if u % 65536 < 32768 then ((u % 65536 : Nat) : Int) else ((u % 65536 : Nat) : Int) - 65536

/-- The loop of `readWav` on the bytes after the seek position: `io.ReadFull(file, buf)` with
a 2-byte `buf` gives `io.EOF` when nothing is left (the loop breaks), `io.ErrUnexpectedEOF`
when one byte is left (returned as the error), and otherwise two bytes, which are converted
and appended to `samples`. -/
def readLoop : List Byte → List Sample → Except IOErr (List Sample)
  | [], samples => .ok samples
  | [_], _ => .error .unexpectedEOF
  | b0 :: b1 :: rest, samples =>
      readLoop rest (samples ++ [((int16 (Uint16 b0 b1) : Int) : ℚ) / 32768])

/-- The method `readWav(path)`: open the file, seek to offset 44, run the read loop.  Seeking
past the end of a shorter file succeeds and the first read then reports `io.EOF`. -/
def readWav (fs : FS) (path : Str) : Except IOErr (List Sample) :=
  match fs path with
  | none => .error .openFailed
  | some content => readLoop (content.drop 44) []

/-! ## Strings -/

/-- The predicate `unicode.IsSpace` of the Go standard library, which `strings.TrimSpace` uses:
the Latin-1 spaces `\t \n \v \f \r`, space, U+0085, U+00A0, and the other code points with the
Unicode property White_Space. -/
def isSpace (r : Char) : Bool :=
  let n := r.toNat
  (decide (0x09 ≤ n) && decide (n ≤ 0x0D)) || n == 0x20 || n == 0x85 || n == 0xA0 ||
  n == 0x1680 || (decide (0x2000 ≤ n) && decide (n ≤ 0x200A)) || n == 0x2028 || n == 0x2029 ||
  n == 0x202F || n == 0x205F || n == 0x3000

/-- The library function `strings.TrimSpace`: all leading and all trailing white space
removed. -/
def TrimSpace (s : Str) : Str :=
  ((s.dropWhile isSpace).reverse.dropWhile isSpace).reverse

/-- The library function `filepath.Base` (Unix separator): the last element of the path,
after trailing slashes are removed; "." for the empty path and "/" for a path of slashes. -/
def Base (path : Str) : Str :=
  if path = [] then ['.']
  else
    let stripped := (path.reverse.dropWhile (fun c => c == '/')).reverse
    let last := (stripped.reverse.takeWhile (fun c => c != '/')).reverse
    if last = [] then ['/'] else last

/-! ## Errors and results -/

/-- The errors the methods of `App` return, one constructor per `fmt.Errorf` format. -/
inductive Error
  /-- Format "model file not found: %s". -/
  | modelNotFound (modelPath : Str)
  /-- Format "failed to load model: %w". -/
  | loadModel (cause : Str)
  /-- Format "failed to create context: %w". -/
  | createContext (cause : Str)
  /-- Format "ffmpeg conversion failed: %w\nOutput: %s". -/
  | ffmpeg (cause : Str)
  /-- Message "model not loaded. Please load a model first". -/
  | notLoaded
  /-- Format "failed to convert audio: %w". -/
  | convertAudio (cause : Error)
  /-- Format "failed to read WAV: %w". -/
  | readWAV (cause : IOErr)
  /-- Format "transcription failed: %w". -/
  | transcription (cause : Str)
  /-- Message "no speech detected in audio". -/
  | noSpeech
  /-- Message "no audio data provided". -/
  | noAudioData
  /-- Format "failed to save recording: %w". -/
  | saveRecording (cause : Str)
  deriving DecidableEq, Repr

/-- The pair `(string, error)` a transcription method returns. -/
structure Ret where
  text : Str
  err : Option Error
  deriving DecidableEq, Repr

/-- How a call of `SaveAndTranscribeRecording` ends: it returns, or `saveToCopy` panics. -/
inductive Outcome
  | returned (r : Ret)
  | panicked
  deriving DecidableEq, Repr

/-! ## The engine, the session and the world -/

/-- A `whisper.Segment`; only its `Text` is read. -/
structure Segment where
  Text : Str
  deriving DecidableEq, Repr

/-- A `whisper.Context`: the model it was derived from and the segments of the last `Process`
call that `NextSegment` has not handed out yet. -/
structure WhisperContext where
  model : Nat
  pending : List Segment
  deriving DecidableEq, Repr

/-- The `App` struct. -/
structure App where
  ctx : Option Nat
  whisperModel : Option Nat
  whisperCtx : Option WhisperContext
  modelPath : Str
  deriving DecidableEq, Repr

/-- Everything outside the `App` value that the methods read or change. -/
structure World where
  /-- The filesystem. -/
  fs : FS
  /-- Handles of the models that `whisper.New` has created and that have not been closed. -/
  live : List Nat
  /-- The handle the next `whisper.New` hands out. -/
  fresh : Nat
  /-- The sample buffers submitted to `Process`, most recent first. -/
  processed : List (List Sample)
  /-- The content of the clipboard. -/
  clipboard : Option Str
  /-- Lines printed on standard output. -/
  stdout : List Str

/-- The behaviour of the external collaborators, fixed but arbitrary. -/
structure Env where
  /-- The value of `filepath.Join(os.TempDir(), name)`. -/
  tempPath : Str → Str
  /-- Outcome of `whisper.New(modelPath)`: the error, if the engine rejects the file. -/
  whisperNew : FS → Str → Option Str
  /-- Outcome of `model.NewContext()` on the model with this handle. -/
  newContext : Nat → Option Str
  /-- Outcome of `Process(data, nil, nil, nil)` on a context of this model: an error, or the
  segments that `NextSegment` then hands out one by one before it reports the end. -/
  process : Nat → List Sample → Except Str (List Segment)
  /-- A run of `ffmpeg -y -i input -ar 16000 -ac 1 -c:a pcm_s16le output`: the filesystem it
  leaves and the error of `cmd.CombinedOutput()`, if any. -/
  ffmpeg : FS → Str → Str → FS × Option Str
  /-- Failure of `os.WriteFile`: the error and the filesystem it leaves; `none` is success. -/
  writeFails : FS → Str → List Byte → Option (Str × FS)
  /-- A run of `pbcopy` with this text on its input: the clipboard it leaves and whether
  every step (pipe, start, write, wait) succeeded. -/
  pbcopy : Option Str → Str → Option Str × Bool
  /-- Result of `os.Stat(path)`. -/
  stat : FS → Str → StatResult
  /-- Whether `os.Remove(path)` fails; a failed removal leaves the filesystem as it is. -/
  removeFails : FS → Str → Bool

/-- The call `os.Remove(path)` with its error discarded, as in `defer os.Remove(path)`. -/
def osRemove (env : Env) (fs : FS) (path : Str) : FS :=
  if env.removeFails fs path then fs else Remove fs path

/-- The constructor `NewApp`. -/
def NewApp : App :=
  { ctx := none, whisperModel := none, whisperCtx := none, modelPath := [] }

/-- The method `startup`. -/
def startup (a : App) (ctx : Nat) : App :=
  { a with ctx := some ctx }

/-! ## The methods of `App` -/

/-- The method `LoadModel(modelPath)`.  Only a stat error with `os.IsNotExist` gives "model
file not found"; after any other stat result the call goes on.  `whisper.New` creates a
model, which is live until it is closed; the three fields of the session are assigned only after both engine calls have succeeded. -/
def LoadModel (env : Env) (a : App) (w : World) (modelPath : Str) : App × World × Option Error :=
  if env.stat w.fs modelPath = .notExist then (a, w, some (.modelNotFound modelPath))
  else
    match env.whisperNew w.fs modelPath with
    | some cause => (a, w, some (.loadModel cause))
    | none =>
      let model := w.fresh
      let w1 := { w with live := model :: w.live, fresh := w.fresh + 1 }
      match env.newContext model with
      | some cause => (a, w1, some (.createContext cause))
      | none =>
        ({ a with whisperModel := some model,
                  whisperCtx := some { model := model, pending := [] },
                  modelPath := modelPath },
         w1, none)

/-- The method `ConvertToWav(inputPath, outputPath)`: one run of ffmpeg. -/
def ConvertToWav (env : Env) (w : World) (inputPath outputPath : Str) : World × Option Error :=
  match env.ffmpeg w.fs inputPath outputPath with
  | (fs1, some cause) => ({ w with fs := fs1 }, some (.ffmpeg cause))
  | (fs1, none) => ({ w with fs := fs1 }, none)

/-- The call `a.whisperCtx.Process(data, nil, nil, nil)`: the buffer is submitted to the
engine; on success the context holds the segments of this buffer. -/
def Process (env : Env) (c : WhisperContext) (w : World) (data : List Sample) :
    WhisperContext × World × Option Str :=
  let w1 := { w with processed := data :: w.processed }
  match env.process c.model data with
  | .error cause => (c, w1, some cause)
  | .ok segments => ({ c with pending := segments }, w1, none)

/-- The call `a.whisperCtx.NextSegment()`: the next pending segment, or an error when none is
left. -/
def NextSegment (c : WhisperContext) : WhisperContext × Option Segment :=
  match c.pending with
  | [] => (c, none)
  | segment :: rest => ({ c with pending := rest }, some segment)

/-- The loop `for { segment, err := NextSegment(); if err != nil { break };
sb.WriteString(segment.Text); sb.WriteString(" ") }` run on the pending segments: the content
of the string builder when the loop ends.  (The context then has no pending segment.) -/
def segmentLoop : List Segment → Str → Str
  | [], sb => sb
  | segment :: rest, sb => segmentLoop rest ((sb ++ segment.Text) ++ [' '])

/-- The method `TranscribeFile(path)`.  The deferred `os.Remove(wavFile)` is registered after
the check of the session and runs after the body, whichever `return` ends it; its error is
discarded. -/
def TranscribeFile (env : Env) (a : App) (w : World) (path : Str) : App × World × Ret :=
  match a.whisperCtx with
  | none => (a, w, ⟨[], some .notLoaded⟩)
  | some c =>
    let wavFile := env.tempPath "whisper_temp.wav".toList
    let body : App × World × Ret :=
      match ConvertToWav env w path wavFile with
      | (w1, some e) => (a, w1, ⟨[], some (.convertAudio e)⟩)
      | (w1, none) =>
        match readWav w1.fs wavFile with
        | .error e => (a, w1, ⟨[], some (.readWAV e)⟩)
        | .ok data =>
          match Process env c w1 data with
          | (c1, w2, some e) =>
            ({ a with whisperCtx := some c1 }, w2, ⟨[], some (.transcription e)⟩)
          | (c1, w2, none) =>
            let sb := segmentLoop c1.pending []
            let a2 := { a with whisperCtx := some { c1 with pending := [] } }
            let result := TrimSpace sb
            if result = [] then (a2, w2, ⟨[], some .noSpeech⟩) else (a2, w2, ⟨result, none⟩)
    (body.1, { body.2.1 with fs := osRemove env body.2.1.fs wavFile }, body.2.2)

/-- The method `GetModelInfo()`. -/
def GetModelInfo (a : App) : Str :=
  match a.whisperCtx with
  | none => "No model loaded".toList
  | some _ => "Model loaded: ".toList ++ Base a.modelPath

/-- The method `TranscribeAudioData(audioData)`. -/
def TranscribeAudioData (env : Env) (a : App) (w : World) (audioData : List Sample) :
    App × World × Ret :=
  match a.whisperCtx with
  | none => (a, w, ⟨[], some .notLoaded⟩)
  | some c =>
    if audioData.length = 0 then (a, w, ⟨[], some .noAudioData⟩)
    else
      match Process env c w audioData with
      | (c1, w1, some e) =>
        ({ a with whisperCtx := some c1 }, w1, ⟨[], some (.transcription e)⟩)
      | (c1, w1, none) =>
        let sb := segmentLoop c1.pending []
        let a2 := { a with whisperCtx := some { c1 with pending := [] } }
        let result := TrimSpace sb
        if result = [] then (a2, w1, ⟨[], some .noSpeech⟩) else (a2, w1, ⟨result, none⟩)

/-- The method `saveToCopy(text)`: the flag is `false` when one of its four steps fails and
it panics; otherwise the message is printed and it returns. -/
def saveToCopy (env : Env) (w : World) (text : Str) : World × Bool :=
  match env.pbcopy w.clipboard text with
  | (clip, false) => ({ w with clipboard := clip }, false)
  | (clip, true) =>
    ({ w with clipboard := clip,
              stdout := w.stdout ++ ["Text copied to clipboard. Try pasting it now!".toList] },
     true)

/-- The method `SaveAndTranscribeRecording(audioBlob)`.  The two deferred removals are
registered after the check of the session; they run in reverse order (`tempWav` first) after
the body, on every `return` and also when `saveToCopy` panics; their errors are discarded. -/
def SaveAndTranscribeRecording (env : Env) (a : App) (w : World) (audioBlob : List Byte) :
    App × World × Outcome :=
  match a.whisperCtx with
  | none => (a, w, .returned ⟨[], some .notLoaded⟩)
  | some c =>
    let tempInput := env.tempPath "whisper_recording.webm".toList
    let tempWav := env.tempPath "whisper_recording.wav".toList
    let body : App × World × Outcome :=
      match env.writeFails w.fs tempInput audioBlob with
      | some (cause, fs0) =>
        (a, { w with fs := fs0 }, .returned ⟨[], some (.saveRecording cause)⟩)
      | none =>
        let w0 := { w with fs := WriteFile w.fs tempInput audioBlob }
        match ConvertToWav env w0 tempInput tempWav with
        | (w1, some e) => (a, w1, .returned ⟨[], some (.convertAudio e)⟩)
        | (w1, none) =>
          match readWav w1.fs tempWav with
          | .error e => (a, w1, .returned ⟨[], some (.readWAV e)⟩)
          | .ok data =>
            match Process env c w1 data with
            | (c1, w2, some e) =>
              ({ a with whisperCtx := some c1 }, w2, .returned ⟨[], some (.transcription e)⟩)
            | (c1, w2, none) =>
              let sb := segmentLoop c1.pending []
              let a2 := { a with whisperCtx := some { c1 with pending := [] } }
              let result := TrimSpace sb
              if result = [] then (a2, w2, .returned ⟨[], some .noSpeech⟩)
              else
                match saveToCopy env w2 result with
                | (w3, false) => (a2, w3, .panicked)
                | (w3, true) => (a2, w3, .returned ⟨result, none⟩)
    (body.1, { body.2.1 with fs := osRemove env (osRemove env body.2.1.fs tempWav) tempInput },
      body.2.2)

/-! ## Specification-side definitions -/

/-- What the specification says a sample is made of: the signed 16-bit integer whose low byte
is `lo` and whose high byte is `hi`. -/
def specInt16LE (lo hi : Byte) : Int :=
  if hi.val < 128 then (lo.val : Int) + 256 * (hi.val : Int)
  else (lo.val : Int) + 256 * (hi.val : Int) - 65536

/-- What the specification says a transcript is made of: the texts joined by single spaces. -/
def specJoin : List Str → Str
  | [] => []
  | [t] => t
  | t :: u :: rest => t ++ ' ' :: specJoin (u :: rest)

/-- What the specification says of a successful transcript: it is not the empty string and it
neither begins nor ends with white space. -/
def specTrimmed (text : Str) : Prop :=
  text ≠ [] ∧ (∀ c, text.head? = some c → isSpace c = false) ∧
    (∀ c, text.getLast? = some c → isSpace c = false)

/-! ## Concrete inputs -/

/-- A header of 44 zero bytes. -/
def demoHeader : List Byte := List.replicate 44 0

/-- Four PCM bytes: the samples `-32768` and `32767`. -/
def demoPcm : List Byte := [0x00, 0x80, 0xFF, 0x7F]

/-- Three PCM bytes: one sample and a trailing odd byte. -/
def demoOddPcm : List Byte := [0x00, 0x80, 0xFF]

/-- A filesystem with a single file. -/
def oneFile (path : Str) (content : List Byte) : FS :=
  fun q => if q = path then some content else none

/-- An environment in which every external step succeeds: ffmpeg writes a 48-byte waveform
file to its output path, the engine recognises the two segments "hello" and "world", a path
without an entry does not exist for `os.Stat`, and every removal succeeds. -/
def demoEnv : Env where
  tempPath := fun name => "/tmp/".toList ++ name
  whisperNew := fun _ _ => none
  newContext := fun _ => none
  process := fun _ _ => .ok [⟨"hello".toList⟩, ⟨"world".toList⟩]
  ffmpeg := fun fs _ output => (WriteFile fs output (demoHeader ++ demoPcm), none)
  writeFails := fun _ _ _ => none
  pbcopy := fun _ text => (some text, true)
  stat := fun fs path => if (fs path).isSome then .found else .notExist
  removeFails := fun _ _ => false

/-- The environment `demoEnv` with an engine that recognises only white space. -/
def silentEnv : Env :=
  { demoEnv with process := fun _ _ => .ok [⟨" ".toList⟩, ⟨[]⟩, ⟨"\t\n".toList⟩] }

/-- The environment `demoEnv` on a system where `os.Stat` of a path below the regular file
"model.bin" fails with ENOTDIR, and where the engine cannot open a path without an entry. -/
def notDirEnv : Env :=
  { demoEnv with
    stat := fun fs path =>
      if path = "model.bin/x".toList then .otherError
      else if (fs path).isSome then .found else .notExist
    whisperNew := fun fs path =>
      if (fs path).isSome then none else some "failed to open model".toList }

/-- A world whose filesystem holds one model file; nothing is loaded yet. -/
def demoWorld : World where
  fs := oneFile "model.bin".toList []
  live := []
  fresh := 0
  processed := []
  clipboard := none
  stdout := []

/-- The session after `LoadModel("model.bin")` in `demoWorld`: model 0 and its context. -/
def loadedApp : App where
  ctx := none
  whisperModel := some 0
  whisperCtx := some ⟨0, []⟩
  modelPath := "model.bin".toList

/-- The world after `LoadModel("model.bin")` in `demoWorld`: model 0 is live. -/
def loadedWorld : World :=
  { demoWorld with live := [0], fresh := 1 }

/-- The two segments of `demoEnv`. -/
def helloWorld : List Segment := [⟨"hello".toList⟩, ⟨"world".toList⟩]

/-- The three segments of `silentEnv`. -/
def silence : List Segment := [⟨" ".toList⟩, ⟨[]⟩, ⟨"\t\n".toList⟩]

/-! ## Lemmas on `readWav` -/

/-- The samples of a byte sequence, two bytes each (proof device for `readLoop`). -/
def decodePairs : List Byte → List Sample
  | b0 :: b1 :: rest => ((int16 (Uint16 b0 b1) : Int) : ℚ) / 32768 :: decodePairs rest
  | _ => []

theorem int16_Uint16 (lo hi : Byte) : int16 (Uint16 lo hi) = specInt16LE lo hi := by
  have h0 := lo.isLt
  have h1 := hi.isLt
  unfold int16 Uint16 specInt16LE
  split_ifs <;> omega

theorem specInt16LE_bounds (lo hi : Byte) :
    -32768 ≤ specInt16LE lo hi ∧ specInt16LE lo hi < 32768 := by
  have h0 := lo.isLt
  have h1 := hi.isLt
  unfold specInt16LE
  split_ifs <;> constructor <;> omega

theorem sample_bounds (k : Int) (hlo : -32768 ≤ k) (hhi : k < 32768) :
    (-1 : ℚ) ≤ (k : ℚ) / 32768 ∧ (k : ℚ) / 32768 < 1 := by
  have h1 : (-32768 : ℚ) ≤ (k : ℚ) := by exact_mod_cast hlo
  have h2 : (k : ℚ) < 32768 := by exact_mod_cast hhi
  constructor
  · rw [le_div_iff₀ (by norm_num)]
    linarith
  · rw [div_lt_iff₀ (by norm_num)]
    linarith

theorem readLoop_even : ∀ (n : Nat) (bs : List Byte) (acc : List Sample),
    bs.length = 2 * n → readLoop bs acc = .ok (acc ++ decodePairs bs) := by
  intro n
  induction n with
  | zero =>
    intro bs acc h
    have : bs = [] := List.length_eq_zero.mp (by omega)
    subst this
    simp [readLoop, decodePairs]
  | succ n ih =>
    intro bs acc h
    match bs, h with
    | b0 :: b1 :: rest, h =>
      have hr : rest.length = 2 * n := by simp at h; omega
      simp [readLoop, decodePairs, ih rest _ hr]

theorem readLoop_odd : ∀ (n : Nat) (bs : List Byte) (acc : List Sample),
    bs.length = 2 * n + 1 → readLoop bs acc = .error .unexpectedEOF := by
  intro n
  induction n with
  | zero =>
    intro bs acc h
    match bs, h with
    | [_], _ => simp [readLoop]
  | succ n ih =>
    intro bs acc h
    match bs, h with
    | b0 :: b1 :: rest, h =>
      have hr : rest.length = 2 * n + 1 := by simp at h; omega
      simp [readLoop, ih rest _ hr]

theorem decodePairs_length : ∀ (n : Nat) (bs : List Byte),
    bs.length = 2 * n → (decodePairs bs).length = n := by
  intro n
  induction n with
  | zero =>
    intro bs h
    have : bs = [] := List.length_eq_zero.mp (by omega)
    subst this
    simp [decodePairs]
  | succ n ih =>
    intro bs h
    match bs, h with
    | b0 :: b1 :: rest, h =>
      have hr : rest.length = 2 * n := by simp at h; omega
      simp [decodePairs, ih rest hr]

theorem decodePairs_get : ∀ (bs : List Byte) (i : Nat), 2 * i + 1 < bs.length →
    (decodePairs bs)[i]? =
      some (((specInt16LE (bs.getD (2 * i) 0) (bs.getD (2 * i + 1) 0) : Int) : ℚ) / 32768) := by
  intro bs i
  induction i generalizing bs with
  | zero =>
    intro h
    match bs, h with
    | b0 :: b1 :: rest, _ => simp [decodePairs, int16_Uint16]
  | succ i ih =>
    intro h
    match bs, h with
    | b0 :: b1 :: rest, h =>
      have hr : 2 * i + 1 < rest.length := by simp at h; omega
      have e1 : 2 * (i + 1) = (2 * i + 1) + 1 := by ring
      have e2 : 2 * (i + 1) + 1 = (2 * i + 1 + 1) + 1 := by ring
      simp only [decodePairs, List.getElem?_cons_succ, ih rest hr]
      rw [e2, e1]
      simp [List.getD_cons_succ]

theorem decodePairs_bounds : ∀ (bs : List Byte), ∀ s ∈ decodePairs bs, (-1 : ℚ) ≤ s ∧ s < 1
  | [], s, hs => by simp [decodePairs] at hs
  | [_], s, hs => by simp [decodePairs] at hs
  | b0 :: b1 :: rest, s, hs => by
    simp only [decodePairs, List.mem_cons] at hs
    rcases hs with rfl | hs
    · rw [int16_Uint16]
      exact sample_bounds _ (specInt16LE_bounds b0 b1).1 (specInt16LE_bounds b0 b1).2
    · exact decodePairs_bounds rest s hs

/-! ## Lemmas on `TrimSpace` and the segment loop -/

theorem TrimSpace_eq (s : Str) :
    TrimSpace s = List.rdropWhile isSpace (s.dropWhile isSpace) := rfl

theorem isSpace_blank : isSpace ' ' = true := by decide

theorem TrimSpace_append_blank (s : Str) : TrimSpace (s ++ [' ']) = TrimSpace s := by
  induction s with
  | nil => simp [TrimSpace, List.dropWhile, isSpace_blank]
  | cons c s ih =>
    by_cases hc : isSpace c = true
    · have h1 : TrimSpace (c :: s ++ [' ']) = TrimSpace (s ++ [' ']) := by
        simp [TrimSpace, List.dropWhile_cons, hc]
      have h2 : TrimSpace (c :: s) = TrimSpace s := by
        simp [TrimSpace, List.dropWhile_cons, hc]
      rw [h1, h2, ih]
    · have h1 : (c :: s ++ [' ']).dropWhile isSpace = (c :: s) ++ [' '] := by
        simp [List.dropWhile_cons, hc]
      have h2 : (c :: s).dropWhile isSpace = c :: s := by
        simp [List.dropWhile_cons, hc]
      rw [TrimSpace_eq, TrimSpace_eq, h1, h2]
      exact List.rdropWhile_concat_pos isSpace (c :: s) ' ' isSpace_blank

theorem TrimSpace_of_all_space (s : Str) (h : ∀ c ∈ s, isSpace c = true) :
    TrimSpace s = [] := by
  have hd : s.dropWhile isSpace = [] := by
    simpa [List.dropWhile_eq_nil_iff] using h
  simp [TrimSpace, hd]

theorem TrimSpace_head_not_space (s : Str) (c : Char) (h : (TrimSpace s).head? = some c) :
    isSpace c = false := by
  rw [TrimSpace_eq] at h
  obtain ⟨t, ht⟩ := List.rdropWhile_prefix isSpace (l := s.dropWhile isSpace)
  have hnot := List.head?_dropWhile_not isSpace s
  cases hr : List.rdropWhile isSpace (s.dropWhile isSpace) with
  | nil => rw [hr] at h; cases h
  | cons x r =>
    rw [hr] at h ht
    have hx : x = c := by simpa using h
    subst hx
    rw [← ht] at hnot
    simpa using hnot

theorem TrimSpace_last_not_space (s : Str) (c : Char) (h : (TrimSpace s).getLast? = some c) :
    isSpace c = false := by
  rw [TrimSpace_eq] at h
  have hne : List.rdropWhile isSpace (s.dropWhile isSpace) ≠ [] := by
    intro h0
    rw [h0] at h
    cases h
  have hnot := List.rdropWhile_last_not isSpace (s.dropWhile isSpace) hne
  rw [List.getLast?_eq_getLast _ hne] at h
  have hc : (List.rdropWhile isSpace (s.dropWhile isSpace)).getLast hne = c := by
    simpa using h
  rw [hc] at hnot
  simpa using hnot

theorem segmentLoop_append (segs : List Segment) (sb : Str) :
    segmentLoop segs sb = sb ++ segmentLoop segs [] := by
  induction segs generalizing sb with
  | nil => simp [segmentLoop]
  | cons seg rest ih =>
    simp only [segmentLoop, List.nil_append]
    rw [ih ((sb ++ seg.Text) ++ [' ']), ih (seg.Text ++ [' '])]
    simp

theorem segmentLoop_cons (seg : Segment) (rest : List Segment) :
    segmentLoop (seg :: rest) [] = seg.Text ++ ' ' :: segmentLoop rest [] := by
  simp only [segmentLoop, List.nil_append]
  rw [segmentLoop_append]
  simp

theorem segmentLoop_specJoin (seg : Segment) (rest : List Segment) :
    segmentLoop (seg :: rest) [] = specJoin ((seg :: rest).map Segment.Text) ++ [' '] := by
  induction rest generalizing seg with
  | nil => simp [segmentLoop, specJoin]
  | cons u rest ih =>
    rw [segmentLoop_cons, ih u]
    simp [specJoin]

/-- The function `segmentLoop` is the loop over `NextSegment`: when `NextSegment` reports the
end the builder is the result and nothing is pending, and when it hands out a segment the loop
goes on from the remaining context with the text and one space appended. -/
theorem segmentLoop_NextSegment (c : WhisperContext) (sb : Str) :
    ((NextSegment c).2 = none →
      segmentLoop c.pending sb = sb ∧ (NextSegment c).1.pending = []) ∧
    (∀ seg, (NextSegment c).2 = some seg →
      segmentLoop c.pending sb =
        segmentLoop (NextSegment c).1.pending ((sb ++ seg.Text) ++ [' '])) := by
  cases h : c.pending with
  | nil => simp [NextSegment, h, segmentLoop]
  | cons seg rest => simp [NextSegment, h, segmentLoop]

theorem TrimSpace_segmentLoop (segs : List Segment) :
    TrimSpace (segmentLoop segs []) = TrimSpace (specJoin (segs.map Segment.Text)) := by
  cases segs with
  | nil => simp [segmentLoop, specJoin]
  | cons seg rest => rw [segmentLoop_specJoin, TrimSpace_append_blank]

theorem segmentLoop_all_space (segs : List Segment)
    (h : ∀ seg ∈ segs, ∀ c ∈ seg.Text, isSpace c = true) :
    ∀ c ∈ segmentLoop segs [], isSpace c = true := by
  induction segs with
  | nil => simp [segmentLoop]
  | cons seg rest ih =>
    rw [segmentLoop_cons]
    intro c hc
    rcases List.mem_append.mp hc with h1 | h2
    · exact h seg (List.mem_cons_self _ _) c h1
    · rcases List.mem_cons.mp h2 with rfl | h3
      · exact isSpace_blank
      · exact ih (fun s hs => h s (List.mem_cons_of_mem _ hs)) c h3

theorem specTrimmed_TrimSpace (sb : Str) (h : TrimSpace sb ≠ []) : specTrimmed (TrimSpace sb) :=
  ⟨h, TrimSpace_head_not_space sb, TrimSpace_last_not_space sb⟩

/-! ## Lemmas on the three transcription methods -/

/-- The result of `TranscribeFile` when conversion, reading and `Process` succeed. -/
theorem TranscribeFile_run (env : Env) (a : App) (w : World) (c : WhisperContext)
    (segs : List Segment) (path : Str) (fs1 : FS) (data : List Sample)
    (hctx : a.whisperCtx = some c)
    (hff : env.ffmpeg w.fs path (env.tempPath "whisper_temp.wav".toList) = (fs1, none))
    (hread : readWav fs1 (env.tempPath "whisper_temp.wav".toList) = .ok data)
    (hproc : env.process c.model data = .ok segs) :
    (TranscribeFile env a w path).2.2 =
      if TrimSpace (segmentLoop segs []) = [] then ⟨[], some .noSpeech⟩
      else ⟨TrimSpace (segmentLoop segs []), none⟩ := by
  simp only [TranscribeFile, hctx, ConvertToWav, hff, hread, Process, hproc]
  split_ifs <;> rfl

/-- The result of `TranscribeAudioData` on a non-empty buffer when `Process` succeeds. -/
theorem TranscribeAudioData_run (env : Env) (a : App) (w : World) (c : WhisperContext)
    (segs : List Segment) (audioData : List Sample)
    (hctx : a.whisperCtx = some c) (hdata : audioData ≠ [])
    (hproc : env.process c.model audioData = .ok segs) :
    (TranscribeAudioData env a w audioData).2.2 =
      if TrimSpace (segmentLoop segs []) = [] then ⟨[], some .noSpeech⟩
      else ⟨TrimSpace (segmentLoop segs []), none⟩ := by
  have hlen : ¬ audioData.length = 0 := fun h => hdata (List.length_eq_zero.mp h)
  simp only [TranscribeAudioData, hctx, hlen, if_false, Process, hproc]
  split_ifs <;> rfl

/-- The result of `SaveAndTranscribeRecording` when saving, conversion, reading and `Process`
succeed. -/
theorem SaveAndTranscribeRecording_run (env : Env) (a : App) (w : World) (c : WhisperContext)
    (segs : List Segment) (audioBlob : List Byte) (fs1 : FS) (data : List Sample)
    (hctx : a.whisperCtx = some c)
    (hsave : env.writeFails w.fs (env.tempPath "whisper_recording.webm".toList) audioBlob = none)
    (hff : env.ffmpeg (WriteFile w.fs (env.tempPath "whisper_recording.webm".toList) audioBlob)
      (env.tempPath "whisper_recording.webm".toList)
      (env.tempPath "whisper_recording.wav".toList) = (fs1, none))
    (hread : readWav fs1 (env.tempPath "whisper_recording.wav".toList) = .ok data)
    (hproc : env.process c.model data = .ok segs) :
    (SaveAndTranscribeRecording env a w audioBlob).2.2 =
      if TrimSpace (segmentLoop segs []) = [] then .returned ⟨[], some .noSpeech⟩
      else if (env.pbcopy w.clipboard (TrimSpace (segmentLoop segs []))).2 = true then
        .returned ⟨TrimSpace (segmentLoop segs []), none⟩
      else .panicked := by
  simp only [SaveAndTranscribeRecording, hctx, hsave, ConvertToWav, hff, hread, Process, hproc]
  by_cases ht : TrimSpace (segmentLoop segs []) = []
  · simp only [ht, if_true]
  · simp only [ht, if_false, saveToCopy]
    rcases hp : env.pbcopy w.clipboard (TrimSpace (segmentLoop segs [])) with ⟨clip, ok⟩
    cases ok <;> simp

/-- A text that `TranscribeFile` returns without an error is a non-empty `TrimSpace` value. -/
theorem TranscribeFile_success (env : Env) (a : App) (w : World) (path text : Str)
    (h : (TranscribeFile env a w path).2.2 = ⟨text, none⟩) :
    ∃ sb, text = TrimSpace sb ∧ TrimSpace sb ≠ [] := by
  cases hctx : a.whisperCtx with
  | none => (simp only [TranscribeFile, hctx] at h; simp at h)
  | some c =>
    rcases hff : env.ffmpeg w.fs path (env.tempPath "whisper_temp.wav".toList) with ⟨fs1, e⟩
    cases e with
    | some cause => (simp only [TranscribeFile, hctx, ConvertToWav, hff] at h; simp at h)
    | none =>
      cases hread : readWav fs1 (env.tempPath "whisper_temp.wav".toList) with
      | error e => (simp only [TranscribeFile, hctx, ConvertToWav, hff, hread] at h; simp at h)
      | ok data =>
        cases hproc : env.process c.model data with
        | error e => (simp only [TranscribeFile, hctx, ConvertToWav, hff, hread, Process, hproc] at h; simp at h)
        | ok segs =>
          rw [TranscribeFile_run env a w c segs path fs1 data hctx hff hread hproc] at h
          by_cases ht : TrimSpace (segmentLoop segs []) = []
          · simp [ht] at h
          · simp only [ht, if_false, Ret.mk.injEq, and_true] at h
            exact ⟨segmentLoop segs [], h.symm, ht⟩

/-- A text that `TranscribeAudioData` returns without an error is a non-empty `TrimSpace`
value. -/
theorem TranscribeAudioData_success (env : Env) (a : App) (w : World) (audioData : List Sample)
    (text : Str) (h : (TranscribeAudioData env a w audioData).2.2 = ⟨text, none⟩) :
    ∃ sb, text = TrimSpace sb ∧ TrimSpace sb ≠ [] := by
  cases hctx : a.whisperCtx with
  | none => (simp only [TranscribeAudioData, hctx] at h; simp at h)
  | some c =>
    by_cases hdata : audioData = []
    · (simp only [TranscribeAudioData, hctx, hdata] at h; simp at h)
    · cases hproc : env.process c.model audioData with
      | error e =>
        have hlen : ¬ audioData.length = 0 := fun h0 => hdata (List.length_eq_zero.mp h0)
        (simp only [TranscribeAudioData, hctx, hlen, Process, hproc] at h; simp at h)
      | ok segs =>
        rw [TranscribeAudioData_run env a w c segs audioData hctx hdata hproc] at h
        by_cases ht : TrimSpace (segmentLoop segs []) = []
        · simp [ht] at h
        · simp only [ht, if_false, Ret.mk.injEq, and_true] at h
          exact ⟨segmentLoop segs [], h.symm, ht⟩

/-- A text that `SaveAndTranscribeRecording` returns without an error is a non-empty
`TrimSpace` value. -/
theorem SaveAndTranscribeRecording_success (env : Env) (a : App) (w : World)
    (audioBlob : List Byte) (text : Str)
    (h : (SaveAndTranscribeRecording env a w audioBlob).2.2 = .returned ⟨text, none⟩) :
    ∃ sb, text = TrimSpace sb ∧ TrimSpace sb ≠ [] := by
  cases hctx : a.whisperCtx with
  | none => (simp only [SaveAndTranscribeRecording, hctx] at h; simp at h)
  | some c =>
    cases hsave : env.writeFails w.fs (env.tempPath "whisper_recording.webm".toList) audioBlob with
    | some r => (simp only [SaveAndTranscribeRecording, hctx, hsave] at h; simp at h)
    | none =>
      rcases hff : env.ffmpeg
        (WriteFile w.fs (env.tempPath "whisper_recording.webm".toList) audioBlob)
        (env.tempPath "whisper_recording.webm".toList)
        (env.tempPath "whisper_recording.wav".toList) with ⟨fs1, e⟩
      cases e with
      | some cause => (simp only [SaveAndTranscribeRecording, hctx, hsave, ConvertToWav, hff] at h; simp at h)
      | none =>
        cases hread : readWav fs1 (env.tempPath "whisper_recording.wav".toList) with
        | error e =>
          (simp only [SaveAndTranscribeRecording, hctx, hsave, ConvertToWav, hff, hread] at h; simp at h)
        | ok data =>
          cases hproc : env.process c.model data with
          | error e =>
            (simp only [SaveAndTranscribeRecording, hctx, hsave, ConvertToWav, hff, hread, Process,
              hproc] at h; simp at h)
          | ok segs =>
            rw [SaveAndTranscribeRecording_run env a w c segs audioBlob fs1 data hctx hsave hff
              hread hproc] at h
            by_cases ht : TrimSpace (segmentLoop segs []) = []
            · simp [ht] at h
            · simp only [ht, if_false] at h
              split_ifs at h
              · simp only [Outcome.returned.injEq, Ret.mk.injEq, and_true] at h
                exact ⟨segmentLoop segs [], h.symm, ht⟩

/-! ## Lemmas on `os.Remove` -/

/-- C1: for a file made of a 44-byte header followed by an even number `N` of PCM bytes
(`N = 0` included), `readWav` succeeds, returns exactly `N / 2` samples, and every sample lies
in the closed range from -1 to 1. -/
theorem readWav_canonical_even (fs : FS) (path : Str) (header pcm : List Byte)
    (hfile : fs path = some (header ++ pcm)) (hheader : header.length = 44)
    (heven : pcm.length % 2 = 0) :
    ∃ samples, readWav fs path = .ok samples ∧ samples.length = pcm.length / 2 ∧
      ∀ s ∈ samples, (-1 : ℚ) ≤ s ∧ s ≤ 1 := by
  have hdrop : (header ++ pcm).drop 44 = pcm := by
    rw [← hheader]; exact List.drop_left _ _
  have hlen : pcm.length = 2 * (pcm.length / 2) := by omega
  refine ⟨decodePairs pcm, ?_, decodePairs_length _ pcm hlen, ?_⟩
  · simp only [readWav, hfile, hdrop]
    simpa using readLoop_even _ pcm [] hlen
  · intro s hs
    exact ⟨(decodePairs_bounds pcm s hs).1, le_of_lt (decodePairs_bounds pcm s hs).2⟩

theorem readWav_canonical_even_witness :
    ∃ samples, readWav (oneFile ['a'] (demoHeader ++ demoPcm)) ['a'] = .ok samples ∧
      samples.length = demoPcm.length / 2 ∧ ∀ s ∈ samples, (-1 : ℚ) ≤ s ∧ s ≤ 1 :=
  readWav_canonical_even (oneFile ['a'] (demoHeader ++ demoPcm)) ['a'] demoHeader demoPcm
    (by simp [oneFile]) (by decide) (by decide)

/-- C2: for a file content `b` of at least 44 bytes with an even number of bytes after the
header, `readWav` returns, in file order, for each `i` the signed 16-bit integer with low byte
`b[44+2i]` and high byte `b[45+2i]`, divided by 32768; every sample is at least -1 and
strictly below 1; and any file with the same bytes from offset 44 on gives the same result,
whatever its first 44 bytes are. -/
theorem readWav_samples (fs : FS) (path : Str) (b : List Byte)
    (hfile : fs path = some b) (_hlen : 44 ≤ b.length) (heven : (b.length - 44) % 2 = 0) :
    ∃ samples, readWav fs path = .ok samples ∧ samples.length = (b.length - 44) / 2 ∧
      (∀ i, i < samples.length → 45 + 2 * i < b.length ∧ samples[i]? =
        some (((specInt16LE (b.getD (44 + 2 * i) 0) (b.getD (45 + 2 * i) 0) : Int) : ℚ)
          / 32768)) ∧
      (∀ s ∈ samples, (-1 : ℚ) ≤ s ∧ s < 1) ∧
      (∀ (fs2 : FS) (path2 : Str) (b2 : List Byte), fs2 path2 = some b2 →
        b2.drop 44 = b.drop 44 → readWav fs2 path2 = .ok samples) := by
  have hdl : (b.drop 44).length = 2 * ((b.length - 44) / 2) := by
    rw [List.length_drop]; omega
  have hrun : readLoop (b.drop 44) [] = .ok (decodePairs (b.drop 44)) := by
    simpa using readLoop_even _ (b.drop 44) [] hdl
  have hcount := decodePairs_length _ (b.drop 44) hdl
  refine ⟨decodePairs (b.drop 44), ?_, hcount, ?_, decodePairs_bounds _, ?_⟩
  · simp only [readWav, hfile, hrun]
  · intro i hi
    rw [hcount] at hi
    have hb : 2 * i + 1 < (b.drop 44).length := by rw [hdl]; omega
    refine ⟨by rw [List.length_drop] at hb; omega, ?_⟩
    rw [decodePairs_get (b.drop 44) i hb]
    have e1 : (b.drop 44).getD (2 * i) 0 = b.getD (44 + 2 * i) 0 := by
      simp [List.getD_eq_getElem?_getD, List.getElem?_drop]
    have e2 : (b.drop 44).getD (2 * i + 1) 0 = b.getD (45 + 2 * i) 0 := by
      have : 44 + (2 * i + 1) = 45 + 2 * i := by ring
      simp [List.getD_eq_getElem?_getD, List.getElem?_drop, this]
    rw [e1, e2]
  · intro fs2 path2 b2 h2 hsame
    simp only [readWav, h2, hsame, hrun]

theorem readWav_samples_witness :
    ∃ samples, readWav (oneFile ['a'] (demoHeader ++ demoPcm)) ['a'] = .ok samples ∧
      samples.length = ((demoHeader ++ demoPcm).length - 44) / 2 ∧
      (∀ i, i < samples.length → 45 + 2 * i < (demoHeader ++ demoPcm).length ∧ samples[i]? =
        some (((specInt16LE ((demoHeader ++ demoPcm).getD (44 + 2 * i) 0)
          ((demoHeader ++ demoPcm).getD (45 + 2 * i) 0) : Int) : ℚ) / 32768)) ∧
      (∀ s ∈ samples, (-1 : ℚ) ≤ s ∧ s < 1) ∧
      (∀ (fs2 : FS) (path2 : Str) (b2 : List Byte), fs2 path2 = some b2 →
        b2.drop 44 = (demoHeader ++ demoPcm).drop 44 → readWav fs2 path2 = .ok samples) :=
  readWav_samples (oneFile ['a'] (demoHeader ++ demoPcm)) ['a'] (demoHeader ++ demoPcm)
    (by simp [oneFile]) (by decide) (by decide)

/-- C3: for a file made of a 44-byte header followed by an odd number of PCM bytes, `readWav`
fails with the truncation error `io.ErrUnexpectedEOF` and returns no sample buffer: it does
not succeed with the trailing byte dropped. -/
theorem readWav_canonical_odd (fs : FS) (path : Str) (header pcm : List Byte)
    (hfile : fs path = some (header ++ pcm)) (hheader : header.length = 44)
    (hodd : pcm.length % 2 = 1) :
    readWav fs path = .error .unexpectedEOF ∧ ∀ samples, readWav fs path ≠ .ok samples := by
  have hdrop : (header ++ pcm).drop 44 = pcm := by
    rw [← hheader]; exact List.drop_left _ _
  have hlen : pcm.length = 2 * (pcm.length / 2) + 1 := by omega
  have hrun : readWav fs path = .error .unexpectedEOF := by
    simp only [readWav, hfile, hdrop]
    exact readLoop_odd _ pcm [] hlen
  refine ⟨hrun, ?_⟩
  intro samples h
  rw [hrun] at h
  cases h

theorem readWav_canonical_odd_witness :
    readWav (oneFile ['a'] (demoHeader ++ demoOddPcm)) ['a'] = .error .unexpectedEOF ∧
      ∀ samples, readWav (oneFile ['a'] (demoHeader ++ demoOddPcm)) ['a'] ≠ .ok samples :=
  readWav_canonical_odd (oneFile ['a'] (demoHeader ++ demoOddPcm)) ['a'] demoHeader demoOddPcm
    (by simp [oneFile]) (by decide) (by decide)

/-! ## Claims on the session -/

/-- C4: when no model has been loaded (the session has no context), `TranscribeFile`,
`TranscribeAudioData` and `SaveAndTranscribeRecording` fail for every input with the error
"model not loaded", return the empty string, and change nothing. -/
theorem not_loaded_fails (env : Env) (a : App) (w : World) (h : a.whisperCtx = none) :
    (∀ path, TranscribeFile env a w path = (a, w, ⟨[], some .notLoaded⟩)) ∧
    (∀ audioData, TranscribeAudioData env a w audioData = (a, w, ⟨[], some .notLoaded⟩)) ∧
    (∀ audioBlob, SaveAndTranscribeRecording env a w audioBlob =
      (a, w, .returned ⟨[], some .notLoaded⟩)) := by
  refine ⟨?_, ?_, ?_⟩
  · intro path
    simp only [TranscribeFile, h]
  · intro audioData
    simp only [TranscribeAudioData, h]
  · intro audioBlob
    simp only [SaveAndTranscribeRecording, h]

theorem not_loaded_fails_witness :
    (∀ path, TranscribeFile demoEnv NewApp demoWorld path =
      (NewApp, demoWorld, ⟨[], some .notLoaded⟩)) ∧
    (∀ audioData, TranscribeAudioData demoEnv NewApp demoWorld audioData =
      (NewApp, demoWorld, ⟨[], some .notLoaded⟩)) ∧
    (∀ audioBlob, SaveAndTranscribeRecording demoEnv NewApp demoWorld audioBlob =
      (NewApp, demoWorld, .returned ⟨[], some .notLoaded⟩)) :=
  not_loaded_fails demoEnv NewApp demoWorld rfl

/-- C5: `TranscribeAudioData` on a buffer of length zero always fails and returns the empty
string: with "no audio data provided" when the session has a context, with "model not loaded"
when it has none.  The session and the world are unchanged; in particular nothing is submitted
to the engine. -/
theorem TranscribeAudioData_empty (env : Env) (a : App) (w : World) :
    TranscribeAudioData env a w [] =
      (a, w, ⟨[], some (if a.whisperCtx.isSome then .noAudioData else .notLoaded)⟩) ∧
    (TranscribeAudioData env a w []).2.1.processed = w.processed := by
  cases h : a.whisperCtx <;> simp [TranscribeAudioData, h]

/-- C8, the claim as stated fails: "model.bin/x" is a path at which no file exists, but
`os.Stat` fails there with ENOTDIR, for which `os.IsNotExist` is false; `LoadModel` goes on to
the engine and fails with "failed to load model", not with "model file not found".  The
session is unchanged all the same. -/
theorem LoadModel_missing_path_not_modelNotFound :
    loadedWorld.fs "model.bin/x".toList = none ∧
    LoadModel notDirEnv loadedApp loadedWorld "model.bin/x".toList =
      (loadedApp, loadedWorld, some (.loadModel "failed to open model".toList)) ∧
    (LoadModel notDirEnv loadedApp loadedWorld "model.bin/x".toList).2.2 ≠
      some (.modelNotFound "model.bin/x".toList) :=
  ⟨by decide, rfl, by decide⟩

/-- C8, amended: `LoadModel` fails with "model file not found" when `os.Stat` reports that
the path does not exist (`os.IsNotExist`); after any other stat result it goes on to the
engine, and fails with "failed to load model" if the engine rejects the path; and whenever
`LoadModel` fails, for whichever reason, the session is exactly what it was before the call
(model handle, context handle and model path), so that a ready session stays ready and
`GetModelInfo` answers as before. -/
theorem LoadModel_failure_keeps_session (env : Env) (a : App) (w : World) (modelPath : Str) :
    (env.stat w.fs modelPath = .notExist →
      LoadModel env a w modelPath = (a, w, some (.modelNotFound modelPath))) ∧
    (env.stat w.fs modelPath ≠ .notExist →
      ∀ cause, env.whisperNew w.fs modelPath = some cause →
        LoadModel env a w modelPath = (a, w, some (.loadModel cause))) ∧
    (∀ e, (LoadModel env a w modelPath).2.2 = some e →
      (LoadModel env a w modelPath).1 = a ∧
      (LoadModel env a w modelPath).1.whisperModel = a.whisperModel ∧
      (LoadModel env a w modelPath).1.whisperCtx = a.whisperCtx ∧
      (LoadModel env a w modelPath).1.modelPath = a.modelPath ∧
      GetModelInfo (LoadModel env a w modelPath).1 = GetModelInfo a) := by
  refine ⟨?_, ?_, ?_⟩
  · intro h
    simp [LoadModel, h]
  · intro h cause hnew
    simp [LoadModel, h, hnew]
  · intro e he
    have key : (LoadModel env a w modelPath).1 = a := by
      by_cases h1 : env.stat w.fs modelPath = .notExist
      · simp [LoadModel, h1]
      · cases h2 : env.whisperNew w.fs modelPath with
        | some cause => simp [LoadModel, h1, h2]
        | none =>
          cases h3 : env.newContext w.fresh with
          | some cause => simp [LoadModel, h1, h2, h3]
          | none => simp [LoadModel, h1, h2, h3] at he
    rw [key]
    exact ⟨rfl, rfl, rfl, rfl, rfl⟩

theorem LoadModel_failure_keeps_session_witness :
    LoadModel demoEnv loadedApp loadedWorld "missing.bin".toList =
      (loadedApp, loadedWorld, some (.modelNotFound "missing.bin".toList)) ∧
    LoadModel notDirEnv loadedApp loadedWorld "model.bin/x".toList =
      (loadedApp, loadedWorld, some (.loadModel "failed to open model".toList)) ∧
    GetModelInfo (LoadModel demoEnv loadedApp loadedWorld "missing.bin".toList).1 =
      "Model loaded: model.bin".toList :=
  ⟨(LoadModel_failure_keeps_session demoEnv loadedApp loadedWorld "missing.bin".toList).1
      (by decide),
   (LoadModel_failure_keeps_session notDirEnv loadedApp loadedWorld "model.bin/x".toList).2.1
      (by decide) "failed to open model".toList (by decide),
   ((LoadModel_failure_keeps_session demoEnv loadedApp loadedWorld "missing.bin".toList).2.2
      (.modelNotFound "missing.bin".toList) (by decide)).2.2.2.2.trans (by decide)⟩

/-- C10, the claim as stated fails: `loadedApp` in `loadedWorld` is the session that a first
`LoadModel` creates, holding model 0 and its context; a second `LoadModel` succeeds, installs
model 1, and model 0 is still live afterwards. -/
theorem LoadModel_leaves_prior_model_live :
    LoadModel demoEnv NewApp demoWorld "model.bin".toList = (loadedApp, loadedWorld, none) ∧
    loadedApp.whisperModel = some 0 ∧
    loadedApp.whisperCtx = some ⟨0, []⟩ ∧
    (LoadModel demoEnv loadedApp loadedWorld "model.bin".toList).2.2 = none ∧
    (LoadModel demoEnv loadedApp loadedWorld "model.bin".toList).1.whisperModel = some 1 ∧
    0 ∈ (LoadModel demoEnv loadedApp loadedWorld "model.bin".toList).2.1.live :=
  ⟨rfl, by decide, by decide, by decide, by decide, by decide⟩

/-- C10, amended: when `LoadModel` succeeds, the session holds the newly created model, a
fresh context of it and the new path, and nothing has been released: the live models are the
new one together with every model that was live before the call, the one of the prior session
included. -/
theorem LoadModel_success_releases_nothing (env : Env) (a : App) (w : World) (modelPath : Str)
    (hok : (LoadModel env a w modelPath).2.2 = none) :
    (LoadModel env a w modelPath).1.whisperModel = some w.fresh ∧
    (LoadModel env a w modelPath).1.whisperCtx = some ⟨w.fresh, []⟩ ∧
    (LoadModel env a w modelPath).1.modelPath = modelPath ∧
    (LoadModel env a w modelPath).2.1.live = w.fresh :: w.live ∧
    (∀ m ∈ w.live, m ∈ (LoadModel env a w modelPath).2.1.live) := by
  by_cases h1 : env.stat w.fs modelPath = .notExist
  · simp [LoadModel, h1] at hok
  · cases h2 : env.whisperNew w.fs modelPath with
    | some cause => simp [LoadModel, h1, h2] at hok
    | none =>
      cases h3 : env.newContext w.fresh with
      | some cause => simp [LoadModel, h1, h2, h3] at hok
      | none =>
        simp only [LoadModel, h1, h2, h3]
        simp
        intro m hm
        exact Or.inr hm

theorem LoadModel_success_releases_nothing_witness :
    (LoadModel demoEnv loadedApp loadedWorld "model.bin".toList).1.whisperModel =
      some loadedWorld.fresh ∧
    (LoadModel demoEnv loadedApp loadedWorld "model.bin".toList).1.whisperCtx =
      some ⟨loadedWorld.fresh, []⟩ ∧
    (LoadModel demoEnv loadedApp loadedWorld "model.bin".toList).1.modelPath =
      "model.bin".toList ∧
    (LoadModel demoEnv loadedApp loadedWorld "model.bin".toList).2.1.live =
      loadedWorld.fresh :: loadedWorld.live ∧
    (∀ m ∈ loadedWorld.live,
      m ∈ (LoadModel demoEnv loadedApp loadedWorld "model.bin".toList).2.1.live) :=
  LoadModel_success_releases_nothing demoEnv loadedApp loadedWorld "model.bin".toList
    (by decide)

/-! ## Claims on the temporary files -/

/-- C6: in each of the three transcription methods, once `Process` has succeeded and the
engine hands out the segments `segs`, the method fails with "no speech detected" if the
white-space-trimmed join of the segment texts by single spaces is empty, and otherwise returns
exactly that trimmed join (for `SaveAndTranscribeRecording`: unless `saveToCopy` panics); the
loop of the code, which appends each text and one space, on the segments "hello" and "world"
followed by the trim gives "hello world". -/
theorem transcript_is_trimmed_join (env : Env) (a : App) (w : World) (c : WhisperContext)
    (segs : List Segment) (hctx : a.whisperCtx = some c) :
    (∀ (path : Str) (fs1 : FS) (data : List Sample),
      env.ffmpeg w.fs path (env.tempPath "whisper_temp.wav".toList) = (fs1, none) →
      readWav fs1 (env.tempPath "whisper_temp.wav".toList) = .ok data →
      env.process c.model data = .ok segs →
      (TranscribeFile env a w path).2.2 =
        if TrimSpace (specJoin (segs.map Segment.Text)) = [] then ⟨[], some .noSpeech⟩
        else ⟨TrimSpace (specJoin (segs.map Segment.Text)), none⟩) ∧
    (∀ (audioData : List Sample), audioData ≠ [] →
      env.process c.model audioData = .ok segs →
      (TranscribeAudioData env a w audioData).2.2 =
        if TrimSpace (specJoin (segs.map Segment.Text)) = [] then ⟨[], some .noSpeech⟩
        else ⟨TrimSpace (specJoin (segs.map Segment.Text)), none⟩) ∧
    (∀ (audioBlob : List Byte) (fs1 : FS) (data : List Sample),
      env.writeFails w.fs (env.tempPath "whisper_recording.webm".toList) audioBlob = none →
      env.ffmpeg (WriteFile w.fs (env.tempPath "whisper_recording.webm".toList) audioBlob)
        (env.tempPath "whisper_recording.webm".toList)
        (env.tempPath "whisper_recording.wav".toList) = (fs1, none) →
      readWav fs1 (env.tempPath "whisper_recording.wav".toList) = .ok data →
      env.process c.model data = .ok segs →
      (SaveAndTranscribeRecording env a w audioBlob).2.2 =
        if TrimSpace (specJoin (segs.map Segment.Text)) = [] then
          .returned ⟨[], some .noSpeech⟩
        else if (env.pbcopy w.clipboard (TrimSpace (specJoin (segs.map Segment.Text)))).2 = true
        then .returned ⟨TrimSpace (specJoin (segs.map Segment.Text)), none⟩
        else .panicked) ∧
    TrimSpace (segmentLoop [⟨"hello".toList⟩, ⟨"world".toList⟩] []) = "hello world".toList := by
  refine ⟨?_, ?_, ?_, by decide⟩
  · intro path fs1 data hff hread hproc
    rw [TranscribeFile_run env a w c segs path fs1 data hctx hff hread hproc,
      TrimSpace_segmentLoop]
  · intro audioData hdata hproc
    rw [TranscribeAudioData_run env a w c segs audioData hctx hdata hproc,
      TrimSpace_segmentLoop]
  · intro audioBlob fs1 data hsave hff hread hproc
    rw [SaveAndTranscribeRecording_run env a w c segs audioBlob fs1 data hctx hsave hff hread
      hproc, TrimSpace_segmentLoop]

theorem transcript_is_trimmed_join_witness :
    (TranscribeFile demoEnv loadedApp loadedWorld "talk.mp3".toList).2.2 =
      ⟨"hello world".toList, none⟩ ∧
    (TranscribeAudioData demoEnv loadedApp loadedWorld [0, 1 / 2]).2.2 =
      ⟨"hello world".toList, none⟩ ∧
    (SaveAndTranscribeRecording demoEnv loadedApp loadedWorld [1, 2, 3]).2.2 =
      .returned ⟨"hello world".toList, none⟩ :=
  ⟨((transcript_is_trimmed_join demoEnv loadedApp loadedWorld ⟨0, []⟩ helloWorld rfl).1
      "talk.mp3".toList
      (WriteFile loadedWorld.fs (demoEnv.tempPath "whisper_temp.wav".toList)
        (demoHeader ++ demoPcm))
      (decodePairs demoPcm) rfl rfl rfl).trans (by decide),
   ((transcript_is_trimmed_join demoEnv loadedApp loadedWorld ⟨0, []⟩ helloWorld rfl).2.1
      [0, 1 / 2] (by simp) rfl).trans (by decide),
   ((transcript_is_trimmed_join demoEnv loadedApp loadedWorld ⟨0, []⟩ helloWorld rfl).2.2.1
      [1, 2, 3]
      (WriteFile (WriteFile loadedWorld.fs (demoEnv.tempPath "whisper_recording.webm".toList)
        [1, 2, 3]) (demoEnv.tempPath "whisper_recording.wav".toList) (demoHeader ++ demoPcm))
      (decodePairs demoPcm) rfl rfl rfl rfl).trans (by decide)⟩

/-- C7: in each of the three transcription methods, once `Process` has succeeded, if the
engine hands out no segment or only segments whose text is entirely white space, the method
fails with "no speech detected" and returns the empty string; and whatever the input and the
behaviour of the collaborators, a text returned without an error is never the empty string and
never begins or ends with white space. -/
theorem no_speech_is_an_error (env : Env) (a : App) (w : World) :
    (∀ (c : WhisperContext) (segs : List Segment), a.whisperCtx = some c →
      (∀ seg ∈ segs, ∀ ch ∈ seg.Text, isSpace ch = true) →
      (∀ (path : Str) (fs1 : FS) (data : List Sample),
        env.ffmpeg w.fs path (env.tempPath "whisper_temp.wav".toList) = (fs1, none) →
        readWav fs1 (env.tempPath "whisper_temp.wav".toList) = .ok data →
        env.process c.model data = .ok segs →
        (TranscribeFile env a w path).2.2 = ⟨[], some .noSpeech⟩) ∧
      (∀ (audioData : List Sample), audioData ≠ [] →
        env.process c.model audioData = .ok segs →
        (TranscribeAudioData env a w audioData).2.2 = ⟨[], some .noSpeech⟩) ∧
      (∀ (audioBlob : List Byte) (fs1 : FS) (data : List Sample),
        env.writeFails w.fs (env.tempPath "whisper_recording.webm".toList) audioBlob = none →
        env.ffmpeg (WriteFile w.fs (env.tempPath "whisper_recording.webm".toList) audioBlob)
          (env.tempPath "whisper_recording.webm".toList)
          (env.tempPath "whisper_recording.wav".toList) = (fs1, none) →
        readWav fs1 (env.tempPath "whisper_recording.wav".toList) = .ok data →
        env.process c.model data = .ok segs →
        (SaveAndTranscribeRecording env a w audioBlob).2.2 =
          .returned ⟨[], some .noSpeech⟩)) ∧
    (∀ (text : Str),
      (∀ path, (TranscribeFile env a w path).2.2 = ⟨text, none⟩ → specTrimmed text) ∧
      (∀ audioData, (TranscribeAudioData env a w audioData).2.2 = ⟨text, none⟩ →
        specTrimmed text) ∧
      (∀ audioBlob, (SaveAndTranscribeRecording env a w audioBlob).2.2 =
        .returned ⟨text, none⟩ → specTrimmed text)) := by
  constructor
  · intro c segs hctx hspace
    have hempty : TrimSpace (segmentLoop segs []) = [] :=
      TrimSpace_of_all_space _ (segmentLoop_all_space segs hspace)
    refine ⟨?_, ?_, ?_⟩
    · intro path fs1 data hff hread hproc
      rw [TranscribeFile_run env a w c segs path fs1 data hctx hff hread hproc, if_pos hempty]
    · intro audioData hdata hproc
      rw [TranscribeAudioData_run env a w c segs audioData hctx hdata hproc, if_pos hempty]
    · intro audioBlob fs1 data hsave hff hread hproc
      rw [SaveAndTranscribeRecording_run env a w c segs audioBlob fs1 data hctx hsave hff hread
        hproc, if_pos hempty]
  · intro text
    refine ⟨?_, ?_, ?_⟩
    · intro path h
      obtain ⟨sb, rfl, hne⟩ := TranscribeFile_success env a w path text h
      exact specTrimmed_TrimSpace sb hne
    · intro audioData h
      obtain ⟨sb, rfl, hne⟩ := TranscribeAudioData_success env a w audioData text h
      exact specTrimmed_TrimSpace sb hne
    · intro audioBlob h
      obtain ⟨sb, rfl, hne⟩ := SaveAndTranscribeRecording_success env a w audioBlob text h
      exact specTrimmed_TrimSpace sb hne

theorem no_speech_is_an_error_witness :
    (TranscribeFile silentEnv loadedApp loadedWorld "talk.mp3".toList).2.2 =
      ⟨[], some .noSpeech⟩ ∧
    (TranscribeAudioData silentEnv loadedApp loadedWorld [0, 1 / 2]).2.2 =
      ⟨[], some .noSpeech⟩ ∧
    (SaveAndTranscribeRecording silentEnv loadedApp loadedWorld [1, 2, 3]).2.2 =
      .returned ⟨[], some .noSpeech⟩ ∧
    specTrimmed "hello world".toList :=
  ⟨((no_speech_is_an_error silentEnv loadedApp loadedWorld).1 ⟨0, []⟩ silence rfl
      (by decide)).1 "talk.mp3".toList
      (WriteFile loadedWorld.fs (silentEnv.tempPath "whisper_temp.wav".toList)
        (demoHeader ++ demoPcm))
      (decodePairs demoPcm) rfl rfl rfl,
   ((no_speech_is_an_error silentEnv loadedApp loadedWorld).1 ⟨0, []⟩ silence rfl
      (by decide)).2.1 [0, 1 / 2] (by simp) rfl,
   ((no_speech_is_an_error silentEnv loadedApp loadedWorld).1 ⟨0, []⟩ silence rfl
      (by decide)).2.2 [1, 2, 3]
      (WriteFile (WriteFile loadedWorld.fs (silentEnv.tempPath "whisper_recording.webm".toList)
        [1, 2, 3]) (silentEnv.tempPath "whisper_recording.wav".toList) (demoHeader ++ demoPcm))
      (decodePairs demoPcm) rfl rfl rfl rfl,
   ((no_speech_is_an_error demoEnv loadedApp loadedWorld).2 "hello world".toList).2.1
      [0, 1 / 2] (by decide)⟩

end GoCreate
